import Mathlib

/-!
# Verification of the Atlas statistical scoring and anomaly-detection engine

Shallow embedding of the core ML modules of the Atlas backend
(`backend/app/ml/`): severity scoring, risk-tier classification with
anchoring, the anomaly ensemble (IQR / isolation forest / CUSUM), trend
detection, and time-series utilities (EWMA, STL front end).

Modelling conventions:
* Python floats are modelled by `ℚ` wherever the source only performs
  field operations and comparisons; `math.exp` (in the recency component)
  is modelled over `ℝ` with `Real.exp`.
* External libraries that the source calls as black boxes (`jenkspy`,
  `sklearn.KMeans`, `sklearn.IsolationForest`, `scipy.stats.linregress`,
  the normal survival function, `statsmodels` STL) are modelled as oracle
  parameters: the theorems hold for every possible output of those
  routines.
* Python's `round(x, nd)` (round half to even) is modelled by `pyRound`
  below.
-/

namespace Atlas

/- The Batteries rational-arithmetic primitives are `@[irreducible]`,
which blocks `decide` on concrete rational computations; restore the
default transparency for them within this development. -/
attribute [local semireducible] Rat.mul Rat.add Rat.sub Rat.inv Rat.ofScientific

/-- Python's `round` to an integer: round half to even, as by CPython for
floats whose scaled value is exactly representable. -/
def pyRoundInt (x : ℚ) : ℤ :=
  if x - ⌊x⌋ < 1/2 then ⌊x⌋
  else if 1/2 < x - ⌊x⌋ then ⌊x⌋ + 1
  else if Even ⌊x⌋ then ⌊x⌋ else ⌊x⌋ + 1

/-- Python's `round(x, d)` for a positive power of ten `s = 10^d`. -/
def pyRound (s : ℚ) (x : ℚ) : ℚ :=
  (pyRoundInt (x * s) : ℚ) / s

/-- `round(x, 2)`. -/
def round2 (x : ℚ) : ℚ := pyRound 100 x

/-- `round(x, 4)`. -/
def round4 (x : ℚ) : ℚ := pyRound 10000 x

/-- `round(x, 1)`. -/
def round1 (x : ℚ) : ℚ := pyRound 10 x

/-- Ascending sort (insertion sort).  Sorting into ascending order has a
unique result over a linear order, so this models `np.sort` / `sorted`. -/
def insertSorted (x : ℚ) : List ℚ → List ℚ
  | [] => [x]
  | y :: ys => if x ≤ y then x :: y :: ys else y :: insertSorted x ys

/-- Ascending sort of a rational list. -/
def sortAsc (l : List ℚ) : List ℚ := l.foldr insertSorted []

/-! ## Risk tier classification (`backend/app/ml/risk_classifier.py`)

`jenkspy.jenks_breaks` and `sklearn.cluster.KMeans` are external
libraries; they enter the embedding as oracle arguments (`jenksOracle`
returning the break list, `kmeansOracle` returning the cluster
centroids).  Everything downstream of them is embedded from the source. -/

/-- `TIER_NAMES` (ascending order). -/
def TIER_NAMES : List String := ["info", "low", "medium", "high", "critical"]

/-- `DEFAULT_BOUNDARIES`: fixed boundaries used when not enough data for Jenks. -/
def DEFAULT_BOUNDARIES : List ℚ := [20, 40, 60, 78]

/-- `ANCHOR_BOUNDARIES["info_max"]`. -/
def info_max : ℚ := 25

/-- `ANCHOR_BOUNDARIES["low_max"]`. -/
def low_max : ℚ := 45

/-- `ANCHOR_BOUNDARIES["medium_max"]`. -/
def medium_max : ℚ := 65

/-- `ANCHOR_BOUNDARIES["high_max"]`. -/
def high_max : ℚ := 85

/-- `ANCHOR_BOUNDARIES["critical_min"]`. -/
def critical_min : ℚ := 70

/-- `_anchor_boundaries`: clamp data-driven boundaries to the real-world
anchor ranges.  The Python code mutates `b` in place, so each later
clamp sees the already-clamped earlier entries. -/
def anchor_boundaries (boundaries : List ℚ) : List ℚ :=
  match boundaries with
  | [x0, x1, x2, x3] =>
    let b0 := max (min x0 info_max) 10
    let b1 := max (min x1 low_max) (b0 + 10)
    let b2 := max (min x2 medium_max) (b1 + 10)
    let b3 := max (max (min x3 high_max) critical_min) (b2 + 8)
    [b0, b1, b2, b3]
  | _ => DEFAULT_BOUNDARIES

/-- `_make_tier_ranges`: tier name → (lower, upper) built from boundaries. -/
def make_tier_ranges (boundaries : List ℚ) : List (String × ℚ × ℚ) :=
  let all_bounds := 0 :: (boundaries ++ [100])
  (List.zip (TIER_NAMES.take (all_bounds.length - 1)) (all_bounds.zip all_bounds.tail)).map
    (fun p => (p.1, round2 p.2.1, round2 p.2.2))

/-- `classify_jenks`: Jenks natural breaks (external `jenkspy`, modelled by
`jenksOracle`), internal breaks anchored and rounded to 2 decimals. -/
def classify_jenks (jenksOracle : List ℚ → ℕ → List ℚ)
    (scores : List ℚ) (k : ℕ) : List ℚ × List (String × ℚ × ℚ) :=
  if scores.length < k then (DEFAULT_BOUNDARIES, make_tier_ranges DEFAULT_BOUNDARIES)
  else
    let breaks := jenksOracle scores k
    let boundaries := (breaks.drop 1).dropLast
    let anchored := anchor_boundaries boundaries
    (anchored.map round2, make_tier_ranges anchored)

/-- `classify_kmeans`: K-means clustering (external `sklearn`, modelled by
`kmeansOracle` returning the centroids), boundaries = midpoints of the
sorted centroids, anchored and rounded. -/
def classify_kmeans (kmeansOracle : List ℚ → ℕ → List ℚ)
    (scores : List ℚ) (k : ℕ) : List ℚ × List (String × ℚ × ℚ) :=
  if scores.length < k then (DEFAULT_BOUNDARIES, make_tier_ranges DEFAULT_BOUNDARIES)
  else
    let centroids := sortAsc (kmeansOracle scores k)
    let boundaries := (centroids.zip centroids.tail).map (fun p => (p.1 + p.2) / 2)
    let anchored := anchor_boundaries boundaries
    (anchored.map round2, make_tier_ranges anchored)

/-- `assign_tier` helper: first boundary the score is below selects the
tier of the same index; otherwise the last tier name. -/
def assignTierGo (score : ℚ) : List ℚ → List String → String
  | _, [] => TIER_NAMES.getLast (by simp [TIER_NAMES])
  | [], _ => TIER_NAMES.getLast (by simp [TIER_NAMES])
  | b :: bs, n :: ns => if score < b then n else assignTierGo score bs ns

/-- `assign_tier(score, boundaries)` with the default `TIER_NAMES`. -/
def assign_tier (score : ℚ) (boundaries : List ℚ) : String :=
  assignTierGo score boundaries TIER_NAMES

/-- `compute_percentile`: fraction of fitted scores ≤ the given score, ×100. -/
def compute_percentile (score : ℚ) (all_scores : List ℚ) : ℚ :=
  if all_scores.length = 0 then 50
  else ((all_scores.filter (· ≤ score)).length : ℚ) / all_scores.length * 100

/-- Observable state of a `RiskTierClassifier` instance. -/
structure RiskTierState where
  method : String
  k : ℕ
  boundaries : List ℚ
  tier_ranges : List (String × ℚ × ℚ)
  all_scores : List ℚ
  fitted_at : Option String
  deriving DecidableEq

/-- `RiskTierClassifier.__init__(method, k)`. -/
def RiskTierClassifier.init (method : String) (k : ℕ) : RiskTierState :=
  { method := method, k := k, boundaries := DEFAULT_BOUNDARIES,
    tier_ranges := make_tier_ranges DEFAULT_BOUNDARIES, all_scores := [],
    fitted_at := none }

/-- `RiskTierClassifier.fit(scores)`.  Null/NaN inputs are modelled as
`none`; `now` stands for `datetime.now(timezone.utc).isoformat()`.  The
method returns a config dict assembled from exactly the fields of the
resulting state (plus summary statistics not consumed anywhere), so the
new state itself models the result. -/
def RiskTierClassifier.fit (jenksOracle kmeansOracle : List ℚ → ℕ → List ℚ)
    (now : String) (st : RiskTierState) (scores : List (Option ℚ)) : RiskTierState :=
  let arr := scores.filterMap id
  if arr.length = 0 then st
  else
    let res :=
      if st.method = "jenks" then classify_jenks jenksOracle arr st.k
      else classify_kmeans kmeansOracle arr st.k
    { st with boundaries := res.1, tier_ranges := res.2, all_scores := arr,
              fitted_at := some now }

/-- `RiskTierClassifier.classify(score)`: (tier name, rounded percentile). -/
def RiskTierClassifier.classify (st : RiskTierState) (score : ℚ) : String × ℚ :=
  let tier := assign_tier score st.boundaries
  let percentile :=
    if st.all_scores.length > 0 then compute_percentile score st.all_scores else 50
  (tier, round1 percentile)

/-- The documented anchor invariant for a fitted boundary list: strictly
ascending, boundary 0 in `[10, 25]`, boundary 1 in `[b0+10, 45]`,
boundary 2 in `[b1+10, 65]`, boundary 3 in `[max(70, b2+8), 85]`. -/
def BoundariesAnchored : List ℚ → Prop
  | [b0, b1, b2, b3] =>
    (b0 < b1 ∧ b1 < b2 ∧ b2 < b3) ∧
    (10 ≤ b0 ∧ b0 ≤ 25) ∧
    (b0 + 10 ≤ b1 ∧ b1 ≤ 45) ∧
    (b1 + 10 ≤ b2 ∧ b2 ≤ 65) ∧
    (max 70 (b2 + 8) ≤ b3 ∧ b3 ≤ 85)
  | _ => False

instance : DecidablePred BoundariesAnchored := by
  intro bs
  unfold BoundariesAnchored
  match bs with
  | [b0, b1, b2, b3] => exact inferInstance
  | [] => exact inferInstance
  | [_] => exact inferInstance
  | [_, _] => exact inferInstance
  | [_, _, _] => exact inferInstance
  | _ :: _ :: _ :: _ :: _ :: _ => exact inferInstance

/-! ## Time-series utilities (`backend/app/ml/time_series.py`) -/

/-- `pandas.Series.ewm(alpha, adjust=False).mean()` recurrence after the
first element: `y_i = (1 - alpha) * y_{i-1} + alpha * x_i`. -/
def ewmaGo (alpha : ℚ) (prev : ℚ) : List ℚ → List ℚ
  | [] => []
  | v :: vs =>
    let y := (1 - alpha) * prev + alpha * v
    y :: ewmaGo alpha y vs

/-- `compute_ewma(values, alpha)`: exponentially weighted moving average
(`adjust=False`, so `y_0 = x_0`); empty input yields the empty list. -/
def compute_ewma (values : List ℚ) (alpha : ℚ) : List ℚ :=
  match values with
  | [] => []
  | v :: vs => v :: ewmaGo alpha v vs

/-- `np.var`: population variance (the empty case is unreachable in the
source: the list sizes are at least `2*period`). -/
def npVar (l : List ℚ) : ℚ :=
  if l.length = 0 then 0
  else
    let mean := l.sum / l.length
    (l.map (fun x => (x - mean) ^ 2)).sum / l.length

/-- `DecompositionResult` dataclass. -/
structure DecompositionResult where
  trend : List ℚ
  seasonal : List ℚ
  residual : List ℚ
  dates : List String
  seasonal_strength : ℚ
  deriving DecidableEq

/-- `decompose_stl(values, dates, period)`.  The `statsmodels` STL fit is
external and is modelled by `stlOracle`, returning the three component
series; `none` models the `except` path (the library raising).  The
forward/backward fill is the identity here because `ℚ` has no NaN. -/
def decompose_stl
    (stlOracle : List ℚ → ℕ → Option (List ℚ × List ℚ × List ℚ))
    (values : List ℚ) (dates : Option (List String)) (period : ℕ) :
    Option DecompositionResult :=
  if values.length < period * 2 then none
  else
    match stlOracle values period with
    | none => none
    | some (trend, seasonal, residual) =>
      let var_resid := npVar residual
      let var_seas_resid := npVar (List.zipWith (· + ·) seasonal residual)
      let seasonal_strength :=
        if 0 < var_seas_resid then max 0 (1 - var_resid / var_seas_resid) else 0
      let date_labels :=
        match dates with
        | some ds => if ds.isEmpty then (List.range values.length).map toString else ds
        | none => (List.range values.length).map toString
      some ⟨trend, seasonal, residual, date_labels.take values.length, seasonal_strength⟩

/-! ## Trend detection (`backend/app/ml/trend_detector.py`)

`scipy.stats.linregress` and the normal survival function (together with
the square root inside the Mann-Kendall z-score) are external; they are
modelled by `regOracle` (slope, r_value, p_value — intercept and stderr
are unused) and `pOracle` (the two-tailed p-value `2*sf(|z|)` computed
from the S statistic and its variance). -/

/-- `TrendResult` dataclass. -/
structure TrendResult where
  direction : String
  slope : ℚ
  confidence : ℚ
  p_value : ℚ
  mk_direction : Option String
  mk_p_value : Option ℚ
  deriving DecidableEq

/-- Sign of a difference, as in the Mann-Kendall S accumulation. -/
def mkSgn (d : ℚ) : ℤ :=
  if 0 < d then 1 else if d < 0 then -1 else 0

/-- Mann-Kendall S statistic: sum of pairwise difference signs. -/
def mkS : List ℚ → ℤ
  | [] => 0
  | x :: xs => (xs.map (fun y => mkSgn (y - x))).sum + mkS xs

/-- Variance of S with the tie correction. -/
def mkVarS (data : List ℚ) : ℚ :=
  let n : ℚ := data.length
  let ties := (data.dedup.map (fun u => (data.count u : ℚ))).filter (fun t => 1 < t)
  n * (n - 1) * (2 * n + 5) / 18 - (ties.map (fun t => t * (t - 1) * (2 * t + 5) / 18)).sum

/-- `mann_kendall_test(data)`: returns (direction, tau, p_value); the
p-value `2*stats.norm.sf(|z|)` is the oracle `pOracle s var_s`. -/
def mann_kendall_test (pOracle : ℤ → ℚ → ℚ) (data : List ℚ) :
    String × ℚ × ℚ :=
  let n := data.length
  if n < 4 then ("stable", 0, 1)
  else
    let s := mkS data
    let var_s := mkVarS data
    if var_s ≤ 0 then ("stable", 0, 1)
    else
      let p_value := pOracle s var_s
      let tau := (s : ℚ) / ((n : ℚ) * ((n : ℚ) - 1) / 2)
      (if p_value < 1/20 then (if 0 < tau then "rising" else "falling") else "stable",
       tau, p_value)

/-- `detect_trend(values, slope_threshold, min_points)`.  Null/NaN values
are modelled as `none` and filtered out as in the source. -/
def detect_trend (regOracle : List ℚ → ℚ × ℚ × ℚ) (pOracle : ℤ → ℚ → ℚ)
    (values : List (Option ℚ)) (slope_threshold : ℚ) (min_points : ℕ) :
    TrendResult :=
  let arr := values.filterMap id
  if arr.length < min_points then
    ⟨"stable", 0, 0, 1, none, none⟩
  else
    let reg := regOracle arr
    let slope := reg.1
    let r_value := reg.2.1
    let p_value := reg.2.2
    let r_squared := r_value ^ 2
    let reg_direction :=
      if p_value < 1/10 ∧ slope_threshold < |slope| then
        (if 0 < slope then "rising" else "falling")
      else "stable"
    let mk := mann_kendall_test pOracle arr
    let direction := if mk.2.2 < 1/20 then mk.1 else reg_direction
    ⟨direction, slope, r_squared, p_value, some mk.1, some mk.2.2⟩

/-! ## Anomaly detection (`backend/app/ml/anomaly_detection.py`)

`sklearn.ensemble.IsolationForest` is external: its per-index flags and
min-max-normalized scores enter `detect_anomalies_ensemble` as the
`isoFlags` / `isoScores` arguments (in the source they are produced by
`detect_isolation_forest` from the stacked feature matrix). -/

/-- `np.percentile(arr, p)` with the default linear interpolation. -/
def percentile (values : List ℚ) (p : ℚ) : ℚ :=
  let sorted := sortAsc values
  let h : ℚ := ((sorted.length : ℚ) - 1) * p / 100
  let i : ℕ := (⌊h⌋).toNat
  let γ := h - ⌊h⌋
  let lo := sorted.getD i 0
  let hi := sorted.getD (i + 1) lo
  lo + γ * (hi - lo)

/-- `detect_iqr(values, multiplier)`: all-false below 4 points, else flag
values outside `[Q1 - m*IQR, Q3 + m*IQR]`. -/
def detect_iqr (values : List ℚ) (multiplier : ℚ) : List Bool :=
  if values.length < 4 then List.replicate values.length false
  else
    let q1 := percentile values 25
    let q3 := percentile values 75
    let iqr := q3 - q1
    let lower_bound := q1 - multiplier * iqr
    let upper_bound := q3 + multiplier * iqr
    values.map (fun v => decide (v < lower_bound ∨ upper_bound < v))

/-- The CUSUM loop body over `arr[1:]`, carrying `(s_pos, s_neg)`. -/
def cusumGo (mean threshold drift : ℚ) (sp sn : ℚ) : List ℚ → List Bool × List ℚ
  | [] => ([], [])
  | v :: vs =>
    let sp' := max 0 (sp + (v - mean) - drift)
    let sn' := max 0 (sn - (v - mean) - drift)
    let rest := cusumGo mean threshold drift sp' sn' vs
    ((decide (threshold < sp' ∨ threshold < sn')) :: rest.1,
     (max sp' sn') :: rest.2)

/-- `detect_cusum(values, threshold, drift)`: returns (alerts, scores);
index 0 keeps its initialized `False`/`0.0` because the loop starts at 1. -/
def detect_cusum (values : List ℚ) (threshold drift : ℚ) :
    List Bool × List ℚ :=
  if values.length < 5 then
    (List.replicate values.length false, List.replicate values.length 0)
  else
    match values with
    | [] => ([], [])
    | _v0 :: rest =>
      let mean := values.sum / (values.length : ℚ)
      let res := cusumGo mean threshold drift 0 0 rest
      (false :: res.1, 0 :: res.2)

/-- `AnomalyResult` dataclass; the `details` dict is flattened into the
trailing fields (scores rounded to 4 decimals as in the source). -/
structure AnomalyResult where
  is_anomaly : Bool
  anomaly_score : ℚ
  methods_flagged : List String
  iqr_detail : Bool
  isolation_detail : Bool
  isolation_score_detail : ℚ
  cusum_detail : Bool
  cusum_score_detail : ℚ
  deriving DecidableEq

/-- Python `max` over a list known to be nonempty in the source. -/
def listMax : List ℚ → ℚ
  | [] => 0
  | v :: vs => vs.foldl max v

/-- `detect_anomalies_ensemble(event_counts, …, min_agreement)`; the
isolation-forest output is the (`isoFlags`, `isoScores`) oracle data. -/
def detect_anomalies_ensemble (isoFlags : List Bool) (isoScores : List ℚ)
    (event_counts : List ℚ) (min_agreement : ℕ) : List AnomalyResult :=
  let n := event_counts.length
  if n = 0 then []
  else
    let iqr_flags := detect_iqr event_counts (3/2)
    let cusum := detect_cusum event_counts 5 (1/2)
    let cusum_flags := cusum.1
    let cusum_scores := cusum.2
    (List.range n).map (fun i =>
      let methods :=
        (if iqr_flags.getD i false then ["iqr"] else []) ++
        (if isoFlags.getD i false then ["isolation_forest"] else []) ++
        (if cusum_flags.getD i false then ["cusum"] else [])
      let is_anomaly := decide (min_agreement ≤ methods.length)
      let iso_i := isoScores.getD i 0
      let cs_i := cusum_scores.getD i 0
      let max_cusum := if 0 < listMax cusum_scores then listMax cusum_scores else 1
      let component_scores :=
        if 0 < cs_i then [iso_i, cs_i / max_cusum] else [iso_i]
      let score0 := component_scores.sum / (component_scores.length : ℚ)
      let anomaly_score := if is_anomaly then max score0 (3/5) else score0
      ⟨is_anomaly, anomaly_score, methods,
       iqr_flags.getD i false, isoFlags.getD i false, round4 iso_i,
       cusum_flags.getD i false, round4 cs_i⟩)

/-! ## Severity scoring (`backend/app/ml/severity_scorer.py`)

String primitives: `str.lower`, `str.count` (non-overlapping substring
occurrences), substring membership (`in`), and the `\b\w+\b` word count
used for density normalization.  The texts in play are ASCII, for which
the `Char` ASCII case functions agree with Python's `str.lower`. -/

/-- Python `str.lower()`. -/
def lowerStr (s : String) : List Char := s.toList.map Char.toLower

/-- Association-list lookup keyed by character list (Python `dict`
lookup by an uppercased string). -/
def lookupChars (l : List (String × ℚ)) (key : List Char) : Option ℚ :=
  match l with
  | [] => none
  | p :: rest => if p.1.toList = key then some p.2 else lookupChars rest key

/-- Python substring membership `pat in s`. -/
def listIsInfix (pat : List Char) : List Char → Bool
  | [] => pat.isEmpty
  | c :: rest => pat.isPrefixOf (c :: rest) || listIsInfix pat rest

/-- `str.count(pat)` for non-empty `pat`: non-overlapping occurrences.
Structured with explicit fuel (initialized to the text length) so that it
is structurally recursive and kernel-evaluable. -/
def strCountFuel (pat : List Char) : ℕ → List Char → ℕ
  | 0, _ => 0
  | _ + 1, [] => 0
  | fuel + 1, c :: rest =>
    if pat.isPrefixOf (c :: rest) then 1 + strCountFuel pat fuel ((c :: rest).drop pat.length)
    else strCountFuel pat fuel rest

/-- `text.count(pat)`. -/
def strCount (text pat : List Char) : ℕ := strCountFuel pat text.length text

/-- A regex `\w` word character (ASCII view). -/
def isWordChar (c : Char) : Bool := c.isAlphanum || c = '_'

/-- Helper for `wordCount`: tracks whether the previous char was a word char. -/
def wordCountAux : List Char → Bool → ℕ
  | [], _ => 0
  | c :: rest, inWord =>
    (if isWordChar c && !inWord then 1 else 0) + wordCountAux rest (isWordChar c)

/-- `len(re.findall(r'\b\w+\b', text))`: number of maximal word-char runs. -/
def wordCount (s : List Char) : ℕ := wordCountAux s false

/-- `CATEGORY_WEIGHTS`. -/
def CATEGORY_WEIGHTS : List (String × ℚ) :=
  [("Armed Conflict", 1.0), ("Crime / Terror", 0.85), ("Civil Unrest", 0.65),
   ("Infrastructure / Energy", 0.60), ("Economic Disruption", 0.50),
   ("Diplomacy / Sanctions", 0.35)]

/-- `CRISIS_KEYWORDS` with intensity weights. -/
def CRISIS_KEYWORDS : List (String × ℚ) :=
  [("nuclear", 3.0), ("invasion", 3.0), ("genocide", 3.0), ("massacre", 3.0),
   ("chemical weapons", 3.0), ("biological weapon", 3.0), ("ethnic cleansing", 3.0),
   ("world war", 3.0), ("war crimes", 3.0), ("mass grave", 3.0),
   ("war", 2.0), ("airstrike", 2.0), ("bombing", 2.0), ("missile", 2.0),
   ("terrorism", 2.0), ("hostage", 2.0), ("assassination", 2.0), ("casualties", 2.0),
   ("killed", 2.0), ("deaths", 2.0), ("explosion", 2.0), ("suicide bomb", 2.0),
   ("mass shooting", 2.0), ("famine", 2.0), ("pandemic", 2.0), ("catastrophe", 2.0),
   ("artillery", 2.0), ("shelling", 2.0), ("ballistic", 2.0), ("drone strike", 2.0),
   ("occupation", 2.0), ("siege", 2.0), ("execution", 2.0), ("torture", 2.0),
   ("beheading", 2.0), ("proxy war", 2.0), ("civil war", 2.0), ("ethnic conflict", 2.0),
   ("attack", 1.5), ("conflict", 1.5), ("crisis", 1.5), ("threat", 1.5),
   ("sanctions", 1.5), ("military", 1.5), ("troops", 1.5), ("combat", 1.5),
   ("insurgent", 1.5), ("militant", 1.5), ("extremist", 1.5), ("violence", 1.5),
   ("coup", 1.5), ("martial law", 1.5), ("emergency", 1.5), ("evacuation", 1.5),
   ("rebel", 1.5), ("militia", 1.5), ("warlord", 1.5), ("paramilitary", 1.5),
   ("displaced", 1.5), ("refugee", 1.5), ("blockade", 1.5), ("escalation", 1.5),
   ("protest", 1.0), ("demonstration", 1.0), ("unrest", 1.0), ("tension", 1.0),
   ("dispute", 1.0), ("strike", 1.0), ("riot", 1.0), ("arrest", 1.0),
   ("humanitarian", 1.0), ("shortage", 1.0),
   ("blackout", 1.0), ("cyber", 1.0), ("sabotage", 1.0), ("embargo", 1.0)]

/-- `_NEGATIVE_LEXICON`. -/
def NEGATIVE_LEXICON : List (String × ℚ) :=
  [("killed", 1.0), ("dead", 1.0), ("deaths", 1.0), ("massacre", 1.0),
   ("genocide", 1.0), ("slaughter", 1.0), ("carnage", 1.0), ("atrocity", 1.0),
   ("annihilate", 1.0), ("destroy", 1.0), ("devastate", 1.0),
   ("war", 0.85), ("invasion", 0.85), ("bombing", 0.85), ("shelling", 0.85),
   ("airstrike", 0.85), ("missile", 0.85), ("casualties", 0.85), ("wounded", 0.85),
   ("explosion", 0.85), ("attack", 0.85), ("siege", 0.85), ("torture", 0.85),
   ("terrorism", 0.85), ("hostage", 0.85), ("assassination", 0.85),
   ("famine", 0.85), ("starvation", 0.85), ("catastrophe", 0.85),
   ("conflict", 0.65), ("crisis", 0.65), ("threat", 0.65), ("violence", 0.65),
   ("danger", 0.65), ("risk", 0.65), ("instability", 0.65), ("collapse", 0.65),
   ("escalation", 0.65), ("confrontation", 0.65), ("aggression", 0.65),
   ("militant", 0.65), ("insurgent", 0.65), ("extremist", 0.65),
   ("sanction", 0.65), ("embargo", 0.65), ("blockade", 0.65),
   ("displaced", 0.65), ("refugee", 0.65), ("fled", 0.65), ("evacuate", 0.65),
   ("coup", 0.65), ("overthrow", 0.65), ("crackdown", 0.65),
   ("tension", 0.4), ("concern", 0.4), ("worry", 0.4), ("unrest", 0.4),
   ("protest", 0.4), ("dispute", 0.4), ("arrest", 0.4), ("detain", 0.4),
   ("condemn", 0.4), ("accuse", 0.4), ("warn", 0.4), ("reject", 0.4),
   ("shortage", 0.4), ("disruption", 0.4), ("damage", 0.4)]

/-- `_POSITIVE_LEXICON`. -/
def POSITIVE_LEXICON : List (String × ℚ) :=
  [("peace", 0.8), ("ceasefire", 0.7), ("agreement", 0.6), ("treaty", 0.6),
   ("cooperation", 0.6), ("diplomatic", 0.5), ("negotiate", 0.5), ("resolve", 0.5),
   ("aid", 0.4), ("humanitarian aid", 0.5), ("recovery", 0.4), ("rebuild", 0.4),
   ("stabilize", 0.5), ("deescalation", 0.6), ("withdraw", 0.4), ("truce", 0.6)]

/-- `CONFLICT_ZONE_SCORES` (ISO-2 code → geopolitical base score). -/
def CONFLICT_ZONE_SCORES : List (String × ℚ) :=
  [("UA", 1.0), ("SD", 1.0), ("PS", 1.0), ("MM", 1.0), ("YE", 1.0), ("SO", 1.0),
   ("SY", 0.85), ("AF", 0.85), ("IQ", 0.85), ("LY", 0.85), ("CD", 0.85),
   ("ET", 0.85), ("ML", 0.85), ("BF", 0.85), ("HT", 0.85),
   ("IR", 0.70), ("KP", 0.70), ("RU", 0.70), ("IL", 0.70), ("LB", 0.70),
   ("NE", 0.70), ("TD", 0.70), ("MZ", 0.70), ("NG", 0.70), ("PK", 0.70),
   ("CM", 0.70),
   ("VE", 0.50), ("CN", 0.50), ("BY", 0.50), ("ER", 0.50), ("CF", 0.50),
   ("SS", 0.50), ("CO", 0.50), ("MX", 0.50), ("TW", 0.50),
   ("KR", 0.40), ("EG", 0.40), ("TH", 0.35), ("PH", 0.35), ("IN", 0.35)]

/-- `_COUNTRY_NAMES_TO_SCORES` (names/actors scanned in the text). -/
def COUNTRY_NAMES_TO_SCORES : List (String × ℚ) :=
  [("ukraine", 1.0), ("gaza", 1.0), ("sudan", 1.0), ("myanmar", 1.0),
   ("yemen", 1.0), ("somalia", 1.0), ("syria", 0.85), ("afghanistan", 0.85),
   ("iraq", 0.85), ("libya", 0.85), ("congo", 0.85), ("ethiopia", 0.85),
   ("mali", 0.85), ("haiti", 0.85), ("iran", 0.70), ("north korea", 0.70),
   ("russia", 0.70), ("hezbollah", 0.70), ("hamas", 0.85), ("taliban", 0.85),
   ("isis", 1.0), ("al-qaeda", 0.85), ("boko haram", 0.85),
   ("pakistan", 0.70), ("nigeria", 0.70), ("lebanon", 0.70),
   ("burkina faso", 0.85), ("niger", 0.70), ("mozambique", 0.70)]

/-- `URGENCY_WORDS`. -/
def URGENCY_WORDS : List String :=
  ["breaking", "urgent", "just in", "developing", "alert",
   "imminent", "escalating", "surging", "unprecedented", "emergency"]

/-- `_compute_sentiment_score(text)`: conflict-aware lexicon sentiment;
returns (severity component in [0,1], polarity rounded to 4 decimals). -/
def _compute_sentiment_score (text : String) : ℚ × ℚ :=
  let text_lower := lowerStr text
  let total_words : ℕ := max (wordCount text_lower) 1
  let neg_counts := NEGATIVE_LEXICON.map (fun p => (strCount text_lower p.1.toList, p.2))
  let neg_score := (neg_counts.map (fun q =>
    if 0 < q.1 then q.2 * ((min q.1 5 : ℕ) : ℚ) else 0)).sum
  let neg_hits := (neg_counts.map (fun q => q.1)).sum
  let pos_counts := POSITIVE_LEXICON.map (fun p => (strCount text_lower p.1.toList, p.2))
  let pos_score := (pos_counts.map (fun q =>
    if 0 < q.1 then q.2 * ((min q.1 5 : ℕ) : ℚ) else 0)).sum
  let pos_hits := (pos_counts.map (fun q => q.1)).sum
  let neg_density := neg_score / max 1 ((total_words : ℚ) / 50)
  let pos_density := pos_score / max 1 ((total_words : ℚ) / 50)
  let total := neg_density + pos_density
  let polarity := if total = 0 then 0 else (pos_density - neg_density) / total
  let severity := min 1 (neg_density / 3)
  let severity := if 0 < neg_hits ∧ pos_hits * 2 < neg_hits then min 1 (severity * 1.2)
    else severity
  (severity, round4 polarity)

/-- `_compute_keyword_intensity(text)`: weighted crisis-keyword score,
counts capped at 3, normalized by 8.0. -/
def _compute_keyword_intensity (text : String) : ℚ :=
  let text_lower := lowerStr text
  let counts := CRISIS_KEYWORDS.map (fun p => (strCount text_lower p.1.toList, p.2))
  let total_weight := (counts.map (fun q =>
    if 0 < q.1 then q.2 * ((min q.1 3 : ℕ) : ℚ) else 0)).sum
  let matchCount := (counts.filter (fun q => 0 < q.1)).length
  if matchCount = 0 then 0 else min 1 (total_weight / 8)

/-- `_compute_urgency_boost(text)`: 0.05 per urgency word, capped at 0.15. -/
def _compute_urgency_boost (text : String) : ℚ :=
  let text_lower := lowerStr text
  let hits := (URGENCY_WORDS.filter (fun w => listIsInfix w.toList text_lower)).length
  min 0.15 ((hits : ℚ) * 0.05)

/-- `_compute_entity_density(entity_count, text_length)`. -/
def _compute_entity_density (entity_count : ℕ) (text_length : ℕ) : ℚ :=
  if text_length = 0 then 0
  else
    let words : ℚ := (text_length : ℚ) / 5
    let density := (entity_count : ℚ) / max 1 (words / 100)
    min 1 (density / 10)

/-- `_compute_recency_score(published_date)`.  The date parsing and the
wall-clock subtraction are modelled by the elapsed whole days
`days_since`; `none` models a missing or unparsable date.  `math.exp` is
`Real.exp`. -/
noncomputable def _compute_recency_score (days_since : Option ℤ) : ℝ :=
  match days_since with
  | none => 0.5
  | some d => Real.exp (-(0.1) * ((max 0 d : ℤ) : ℝ))

/-- `_compute_geopolitical_score(country_code, text)`. -/
def _compute_geopolitical_score (country_code : Option String) (text : String) : ℚ :=
  let base : ℚ :=
    match country_code with
    | some cc => ((lookupChars CONFLICT_ZONE_SCORES (cc.toList.map Char.toUpper)).getD 0)
    | none => 0
  let text_lower := lowerStr text
  let mention_scores := COUNTRY_NAMES_TO_SCORES.filterMap
    (fun p => if listIsInfix p.1.toList text_lower then some p.2 else none)
  match mention_scores with
  | [] => base
  | m :: ms => max base ((ms.foldl max m) * 0.8)

/-- Python round-half-to-even over `ℝ`, for values whose components mix
rational arithmetic with `math.exp`. -/
noncomputable def pyRoundIntR (x : ℝ) : ℤ :=
  if x - ⌊x⌋ < 1/2 then ⌊x⌋
  else if 1/2 < x - ⌊x⌋ then ⌊x⌋ + 1
  else if Even ⌊x⌋ then ⌊x⌋ else ⌊x⌋ + 1

/-- `round(x, d)` over `ℝ` for a power of ten `s = 10^d`. -/
noncomputable def pyRoundR (s : ℝ) (x : ℝ) : ℝ :=
  (pyRoundIntR (x * s) : ℝ) / s

/-- `round(x, 2)` over `ℝ`. -/
noncomputable def round2R (x : ℝ) : ℝ := pyRoundR 100 x

/-- `round(x, 4)` over `ℝ`. -/
noncomputable def round4R (x : ℝ) : ℝ := pyRoundR 10000 x

/-- Component breakdown of a scored record (rounded to 4 decimals, as in
the returned dict). -/
structure SeverityComponents where
  sentiment : ℚ
  keyword_intensity : ℚ
  category_weight : ℚ
  entity_density : ℚ
  recency : ℝ
  geopolitical : ℚ
  urgency_boost : ℚ

/-- The dict returned by `score_severity`. -/
structure ScoredRecord where
  severity_index : ℝ
  threat_level : String
  sentiment_polarity : ℚ
  components : SeverityComponents

/-- `score_severity(text, category, entity_count, published_date,
country_code, goldstein_scale, quad_class)`.  The publish date is carried
as elapsed whole days (see `_compute_recency_score`); `quad_class` keeps
its Python `int` type. -/
noncomputable def score_severity (text : String) (category : String)
    (entity_count : ℕ) (published_days : Option ℤ)
    (country_code : Option String) (goldstein_scale : Option ℚ)
    (quad_class : Option ℤ) : ScoredRecord :=
  let sp := _compute_sentiment_score text
  let sentiment_score0 := sp.1
  let polarity := sp.2
  let keyword_score := _compute_keyword_intensity text
  let category_score := (CATEGORY_WEIGHTS.lookup category).getD 0.3
  let entity_score := _compute_entity_density entity_count text.length
  let recency_score := _compute_recency_score published_days
  let urgency_boost := _compute_urgency_boost text
  let geo_score := _compute_geopolitical_score country_code text
  let sentiment_score1 : ℚ :=
    match goldstein_scale with
    | none => sentiment_score0
    | some g => max sentiment_score0 (max 0 (min 1 ((10 - g) / 20)))
  let sentiment_score : ℚ :=
    match quad_class with
    | none => sentiment_score1
    | some qc =>
      max sentiment_score1
        (((([(1, 0.1), (2, 0.2), (3, 0.6), (4, 0.9)] : List (ℤ × ℚ)).lookup qc).getD 0.3))
  let composite : ℝ :=
    0.20 * (sentiment_score : ℝ) + 0.25 * (keyword_score : ℝ)
      + 0.15 * (category_score : ℝ) + 0.05 * (entity_score : ℝ)
      + 0.05 * recency_score + 0.15 * (geo_score : ℝ) + (urgency_boost : ℝ)
  let composite :=
    if 0.85 ≤ geo_score ∧ 0.3 ≤ sentiment_score then max composite 0.65
    else if 0.7 ≤ geo_score ∧ 0.3 ≤ sentiment_score then max composite 0.5
    else composite
  let severity_index : ℝ := min 100 (max 0 (composite * 100))
  let threat_level :=
    if 75 ≤ severity_index then "critical"
    else if 55 ≤ severity_index then "high"
    else if 35 ≤ severity_index then "medium"
    else if 18 ≤ severity_index then "low"
    else "info"
  { severity_index := round2R severity_index
    threat_level := threat_level
    sentiment_polarity := polarity
    components :=
      { sentiment := round4 sentiment_score
        keyword_intensity := round4 keyword_score
        category_weight := round4 category_score
        entity_density := round4 entity_score
        recency := round4R recency_score
        geopolitical := round4 geo_score
        urgency_boost := round4 urgency_boost } }

/-- The diluted text refuting C2: the phrase plus 111 neutral filler
words, which pushes the lexicon sentiment density below the 0.3 floor
threshold. -/
def cxText : String := "nuclear war invasion o o o o o o o o o o o o o o o o o o o o o o o o o o o o o o o o o o o o o o o o o o o o o o o o o o o o o o o o o o o o o o o o o o o o o o o o o o o o o o o o o o o o o o o o o o o o o o o o o o o o o o o o o o o o o o o"

/-! ## Event classification fallback (`backend/app/ml/event_classifier.py`)

Only the deterministic keyword fallback `classify_by_keywords` is in
scope (the TF-IDF/logistic-regression path is an external trained model).
Python's `max(scores, key=scores.get)` iterates the dict in insertion
order — the order of `_KEYWORD_RULES` — and keeps the first key whose
value is maximal; `maxStep` is that accumulator. -/

/-- `_KEYWORD_RULES`: ordered (category, keyword list) pairs. -/
def KEYWORD_RULES : List (String × List String) :=
  [("Armed Conflict",
    ["military", "airstrike", "bombing", "troops", "invasion", "shelling",
     "war", "warfare", "artillery", "missile strike", "armed forces",
     "combat", "offensive", "drone strike", "battlefield", "ceasefire"]),
   ("Crime / Terror",
    ["terrorism", "terrorist", "attack", "assassination", "kidnapping",
     "hostage", "shooting", "explosion", "suicide bomb", "extremist",
     "militant", "insurgent", "cartel", "gang", "organized crime"]),
   ("Civil Unrest",
    ["protest", "demonstration", "riot", "unrest", "strike", "uprising",
     "rally", "march", "civil disobedience", "crackdown", "dissent",
     "opposition", "coup", "revolution", "martial law"]),
   ("Diplomacy / Sanctions",
    ["sanctions", "diplomacy", "diplomatic", "treaty", "summit",
     "negotiations", "embargo", "united nations", "bilateral", "alliance",
     "peace talks", "foreign minister", "ambassador", "resolution"]),
   ("Economic Disruption",
    ["economic crisis", "inflation", "recession", "trade war", "tariff",
     "supply chain", "currency", "debt crisis", "bankruptcy", "default",
     "market crash", "stock market", "commodity", "oil price"]),
   ("Infrastructure / Energy",
    ["infrastructure", "pipeline", "power grid", "nuclear plant",
     "energy crisis", "blackout", "cyberattack", "dam", "refinery",
     "oil facility", "gas pipeline", "power outage", "sabotage"])]

/-- `sum(1 for kw in keywords if kw in text_lower)`. -/
def keywordHits (text_lower : List Char) (keywords : List String) : ℕ :=
  (keywords.filter (fun kw => listIsInfix kw.toList text_lower)).length

/-- The `max(..., key=...)` accumulator: replace only on strictly greater
value, so the earliest maximal entry wins. -/
def maxStep (acc p : String × ℕ) : String × ℕ :=
  if acc.2 < p.2 then p else acc

/-- `classify_by_keywords(text)`. -/
def classify_by_keywords (text : String) : String × ℚ :=
  let text_lower := lowerStr text
  let scores := KEYWORD_RULES.filterMap (fun rule =>
    let count := keywordHits text_lower rule.2
    if 0 < count then some (rule.1, count) else none)
  match scores with
  | [] => ("Civil Unrest", 0.1)
  | s :: rest =>
    let best := rest.foldl maxStep s
    (best.1, min 0.7 ((best.2 : ℚ) / 5))

/-- Greatest keyword-hit count over all six categories. -/
def maxHits (text_lower : List Char) : ℕ :=
  (KEYWORD_RULES.map (fun r => keywordHits text_lower r.2)).foldr max 0

/-! ### First-maximum characterization of the keyword vote -/

/-- Running maximum of hit counts, seeded at `a.2` (mirrors the fold in
`classify_by_keywords`). -/
def maxSndFrom (a : String × ℕ) (l : List (String × ℕ)) : ℕ :=
  l.foldl (fun n p => max n p.2) a.2

/-! ## Theorems -/

theorem pyRoundInt_mono {x y : ℚ} (h : x ≤ y) : pyRoundInt x ≤ pyRoundInt y := by
  have hfl : ⌊x⌋ ≤ ⌊y⌋ := Int.floor_le_floor h
  rcases eq_or_lt_of_le hfl with heq | hlt
  · have hfx : x - ⌊x⌋ ≤ y - ⌊y⌋ := by rw [← heq]; linarith
    unfold pyRoundInt
    rw [← heq]
    split_ifs <;> first | omega | linarith
  · have h1 : pyRoundInt x ≤ ⌊x⌋ + 1 := by
      unfold pyRoundInt; split_ifs <;> omega
    have h2 : ⌊y⌋ ≤ pyRoundInt y := by
      unfold pyRoundInt; split_ifs <;> omega
    omega

theorem pyRoundInt_intCast (n : ℤ) : pyRoundInt (n : ℚ) = n := by
  unfold pyRoundInt
  have h1 : ⌊(n : ℚ)⌋ = n := Int.floor_intCast n
  rw [h1]
  norm_num

theorem pyRoundInt_add_even (x : ℚ) (k : ℤ) (hk : Even k) :
    pyRoundInt (x + k) = pyRoundInt x + k := by
  unfold pyRoundInt
  have h1 : ⌊x + (k : ℚ)⌋ = ⌊x⌋ + k := Int.floor_add_int x k
  have h2 : x + (k : ℚ) - ((⌊x⌋ + k : ℤ) : ℚ) = x - ⌊x⌋ := by push_cast; ring
  rw [h1, h2]
  have h3 : Even (⌊x⌋ + k) ↔ Even ⌊x⌋ := by
    rw [Int.even_add]
    exact ⟨fun h => h.mpr hk, fun h => iff_of_true h hk⟩
  simp only [h3]
  split_ifs <;> omega

theorem round2_mono {x y : ℚ} (h : x ≤ y) : round2 x ≤ round2 y := by
  unfold round2 pyRound
  have := pyRoundInt_mono (mul_le_mul_of_nonneg_right h (by norm_num : (0:ℚ) ≤ 100))
  have h2 : (pyRoundInt (x * 100) : ℚ) ≤ (pyRoundInt (y * 100) : ℚ) := by exact_mod_cast this
  linarith

theorem round2_intCast (n : ℤ) : round2 (n : ℚ) = n := by
  unfold round2 pyRound
  have : ((n : ℚ) * 100) = ((n * 100 : ℤ) : ℚ) := by push_cast; ring
  rw [this, pyRoundInt_intCast]
  push_cast
  ring

theorem round2_add_ten (x : ℚ) : round2 (x + 10) = round2 x + 10 := by
  unfold round2 pyRound
  have h1 : (x + 10) * 100 = x * 100 + (1000 : ℤ) := by push_cast; ring
  rw [h1, pyRoundInt_add_even _ 1000 (by decide)]
  push_cast
  ring

theorem round2_add_eight (x : ℚ) : round2 (x + 8) = round2 x + 8 := by
  unfold round2 pyRound
  have h1 : (x + 8) * 100 = x * 100 + (800 : ℤ) := by push_cast; ring
  rw [h1, pyRoundInt_add_even _ 800 (by decide)]
  push_cast
  ring

theorem boundariesAnchored_default : BoundariesAnchored DEFAULT_BOUNDARIES := by
  unfold DEFAULT_BOUNDARIES BoundariesAnchored
  norm_num

theorem round2_num (n : ℤ) : round2 (n : ℚ) = (n : ℚ) := round2_intCast n

theorem boundariesAnchored_default_round :
    BoundariesAnchored (DEFAULT_BOUNDARIES.map round2) := by
  have h20 := round2_num 20
  have h40 := round2_num 40
  have h60 := round2_num 60
  have h78 := round2_num 78
  unfold DEFAULT_BOUNDARIES at *
  simp only [List.map]
  push_cast at h20 h40 h60 h78
  rw [h20, h40, h60, h78]
  exact boundariesAnchored_default

theorem boundariesAnchored_core (x0 x1 x2 x3 : ℚ) :
    BoundariesAnchored ((anchor_boundaries [x0, x1, x2, x3]).map round2) := by
  simp only [anchor_boundaries, List.map]
  set b0 := max (min x0 info_max) 10 with hb0
  set b1 := max (min x1 low_max) (b0 + 10) with hb1
  set b2 := max (min x2 medium_max) (b1 + 10) with hb2
  set b3 := max (max (min x3 high_max) critical_min) (b2 + 8) with hb3
  have h0l : 10 ≤ b0 := le_max_right _ _
  have h0u : b0 ≤ 25 :=
    max_le (le_trans (min_le_right _ _) (by norm_num [info_max])) (by norm_num)
  have h1l : b0 + 10 ≤ b1 := le_max_right _ _
  have h1u : b1 ≤ 45 :=
    max_le (le_trans (min_le_right _ _) (by norm_num [low_max])) (by linarith)
  have h2l : b1 + 10 ≤ b2 := le_max_right _ _
  have h2u : b2 ≤ 65 :=
    max_le (le_trans (min_le_right _ _) (by norm_num [medium_max])) (by linarith)
  have h3l : b2 + 8 ≤ b3 := le_max_right _ _
  have h3c : (70 : ℚ) ≤ b3 := by
    rw [hb3]
    calc (70 : ℚ) = critical_min := by norm_num [critical_min]
    _ ≤ max (min x3 high_max) critical_min := le_max_right _ _
    _ ≤ max (max (min x3 high_max) critical_min) (b2 + 8) := le_max_left _ _
  have h3u : b3 ≤ 85 :=
    max_le (max_le (le_trans (min_le_right _ _) (by norm_num [high_max]))
      (by norm_num [critical_min])) (by linarith)
  have hc10 : round2 (10 : ℚ) = 10 := by have := round2_num 10; push_cast at this; exact this
  have hc25 : round2 (25 : ℚ) = 25 := by have := round2_num 25; push_cast at this; exact this
  have hc45 : round2 (45 : ℚ) = 45 := by have := round2_num 45; push_cast at this; exact this
  have hc65 : round2 (65 : ℚ) = 65 := by have := round2_num 65; push_cast at this; exact this
  have hc70 : round2 (70 : ℚ) = 70 := by have := round2_num 70; push_cast at this; exact this
  have hc85 : round2 (85 : ℚ) = 85 := by have := round2_num 85; push_cast at this; exact this
  have r0l : (10 : ℚ) ≤ round2 b0 := hc10 ▸ round2_mono h0l
  have r0u : round2 b0 ≤ 25 := hc25 ▸ round2_mono h0u
  have r1l : round2 b0 + 10 ≤ round2 b1 := by
    have := round2_mono h1l
    rwa [round2_add_ten] at this
  have r1u : round2 b1 ≤ 45 := hc45 ▸ round2_mono h1u
  have r2l : round2 b1 + 10 ≤ round2 b2 := by
    have := round2_mono h2l
    rwa [round2_add_ten] at this
  have r2u : round2 b2 ≤ 65 := hc65 ▸ round2_mono h2u
  have r3l : round2 b2 + 8 ≤ round2 b3 := by
    have := round2_mono h3l
    rwa [round2_add_eight] at this
  have r3c : (70 : ℚ) ≤ round2 b3 := hc70 ▸ round2_mono h3c
  have r3u : round2 b3 ≤ 85 := hc85 ▸ round2_mono h3u
  refine ⟨⟨by linarith, by linarith, by linarith⟩, ⟨r0l, r0u⟩, ⟨r1l, r1u⟩,
    ⟨r2l, r2u⟩, ⟨max_le r3c r3l, r3u⟩⟩

theorem boundariesAnchored_anchor_round (l : List ℚ) :
    BoundariesAnchored ((anchor_boundaries l).map round2) := by
  match l with
  | [x0, x1, x2, x3] => exact boundariesAnchored_core x0 x1 x2 x3
  | [] => exact boundariesAnchored_default_round
  | [_] => exact boundariesAnchored_default_round
  | [_, _] => exact boundariesAnchored_default_round
  | [_, _, _] => exact boundariesAnchored_default_round
  | _ :: _ :: _ :: _ :: _ :: _ => exact boundariesAnchored_default_round

theorem classify_jenks_fst_anchored (jO : List ℚ → ℕ → List ℚ)
    (scores : List ℚ) (k : ℕ) :
    BoundariesAnchored (classify_jenks jO scores k).1 := by
  unfold classify_jenks
  split_ifs
  · exact boundariesAnchored_default
  · exact boundariesAnchored_anchor_round _

theorem classify_kmeans_fst_anchored (kO : List ℚ → ℕ → List ℚ)
    (scores : List ℚ) (k : ℕ) :
    BoundariesAnchored (classify_kmeans kO scores k).1 := by
  unfold classify_kmeans
  split_ifs
  · exact boundariesAnchored_default
  · exact boundariesAnchored_anchor_round _

/-- **C1.** For every list of input severity scores — any distribution and
any size — and for every possible output of the external natural-breaks /
k-means routine, the four tier boundaries produced by
`RiskTierClassifier.fit` are strictly ascending and lie within their
documented anchor ranges: boundary 0 in `[10, 25]`, boundary 1 in
`[b0+10, 45]`, boundary 2 in `[b1+10, 65]`, and boundary 3 in
`[max(70, b2+8), 85]`.  When at least one valid (non-null, non-NaN) score
is present this holds outright; when none is, `fit` keeps the previous
boundaries, so the property is an invariant that holds from the freshly
initialized classifier onward. -/
theorem fit_boundaries_anchored (jO kO : List ℚ → ℕ → List ℚ) (now : String)
    (st : RiskTierState) (scores : List (Option ℚ))
    (method : String) (k : ℕ) :
    (scores.filterMap id ≠ [] →
      BoundariesAnchored (RiskTierClassifier.fit jO kO now st scores).boundaries) ∧
    (BoundariesAnchored st.boundaries →
      BoundariesAnchored (RiskTierClassifier.fit jO kO now st scores).boundaries) ∧
    BoundariesAnchored (RiskTierClassifier.init method k).boundaries := by
  have hmain : scores.filterMap id ≠ [] →
      BoundariesAnchored (RiskTierClassifier.fit jO kO now st scores).boundaries := by
    intro h
    unfold RiskTierClassifier.fit
    have hlen : ¬(scores.filterMap id).length = 0 := by
      simpa [List.length_eq_zero] using h
    rw [if_neg hlen]
    split_ifs
    · exact classify_jenks_fst_anchored jO _ st.k
    · exact classify_kmeans_fst_anchored kO _ st.k
  refine ⟨hmain, ?_, boundariesAnchored_default⟩
  intro hst
  by_cases h : scores.filterMap id = []
  · unfold RiskTierClassifier.fit
    rw [h]
    simpa using hst
  · exact hmain h

theorem fit_boundaries_anchored_witness :
    ([some 50, some 60, none] : List (Option ℚ)).filterMap id ≠ [] ∧
      BoundariesAnchored
        (RiskTierClassifier.fit (fun s _ => s) (fun s _ => s) "2026-01-01"
          (RiskTierClassifier.init "jenks" 5) [some 50, some 60, none]).boundaries ∧
      BoundariesAnchored (RiskTierClassifier.init "jenks" 5).boundaries ∧
      BoundariesAnchored
        (RiskTierClassifier.fit (fun s _ => s) (fun s _ => s) "2026-01-01"
          (RiskTierClassifier.init "jenks" 5) [none]).boundaries :=
  ⟨by decide,
   (fit_boundaries_anchored (fun s _ => s) (fun s _ => s) "2026-01-01"
     (RiskTierClassifier.init "jenks" 5) [some 50, some 60, none] "jenks" 5).1 (by decide),
   (fit_boundaries_anchored (fun s _ => s) (fun s _ => s) "2026-01-01"
     (RiskTierClassifier.init "jenks" 5) [some 50, some 60, none] "jenks" 5).2.2,
   (fit_boundaries_anchored (fun s _ => s) (fun s _ => s) "2026-01-01"
     (RiskTierClassifier.init "jenks" 5) [none] "jenks" 5).2.1 (by decide)⟩

/-- **C10.** If every element of the scores list passed to
`RiskTierClassifier.fit` is null/NaN (modelled as `none`), the call leaves
the classifier's observable state — boundaries, tier ranges, fitted
scores, `fitted_at` — unchanged, so every subsequent `classify` call
returns exactly what it would have returned before the `fit` call. -/
theorem fit_all_invalid_noop (jO kO : List ℚ → ℕ → List ℚ) (now : String)
    (st : RiskTierState) (scores : List (Option ℚ))
    (h : ∀ x ∈ scores, x = none) :
    RiskTierClassifier.fit jO kO now st scores = st ∧
      ∀ s : ℚ, RiskTierClassifier.classify
        (RiskTierClassifier.fit jO kO now st scores) s =
          RiskTierClassifier.classify st s := by
  have hnil : scores.filterMap id = [] := by
    rw [List.filterMap_eq_nil_iff]
    exact h
  have hfit : RiskTierClassifier.fit jO kO now st scores = st := by
    unfold RiskTierClassifier.fit
    rw [hnil]
    simp
  exact ⟨hfit, fun s => by rw [hfit]⟩

theorem fit_all_invalid_noop_witness :
    (∀ x ∈ ([none, none] : List (Option ℚ)), x = none) ∧
      RiskTierClassifier.fit (fun s _ => s) (fun s _ => s) "2026-01-01"
        (RiskTierClassifier.init "jenks" 5) [none, none] =
          RiskTierClassifier.init "jenks" 5 ∧
      RiskTierClassifier.classify
        (RiskTierClassifier.fit (fun s _ => s) (fun s _ => s) "2026-01-01"
          (RiskTierClassifier.init "jenks" 5) [none, none]) 50 =
        RiskTierClassifier.classify (RiskTierClassifier.init "jenks" 5) 50 := by
  have h := fit_all_invalid_noop (fun s _ => s) (fun s _ => s) "2026-01-01"
    (RiskTierClassifier.init "jenks" 5) [none, none] (by decide)
  exact ⟨by decide, h.1, h.2 50⟩

/-- **C8.** `compute_ewma` returns a list of the same length as its input
for every alpha (no minimum length requirement), and with `alpha = 1.0`
the returned list equals the input list exactly. -/
theorem compute_ewma_length_and_identity (values : List ℚ) (alpha : ℚ) :
    (compute_ewma values alpha).length = values.length ∧
      compute_ewma values 1 = values := by
  constructor
  · match values with
    | [] => rfl
    | v :: vs =>
      show (v :: ewmaGo alpha v vs).length = (v :: vs).length
      simp only [List.length_cons]
      congr 1
      induction vs generalizing v with
      | nil => rfl
      | cons w ws ih => simp only [ewmaGo, List.length_cons, ih]
  · match values with
    | [] => rfl
    | v :: vs =>
      show v :: ewmaGo 1 v vs = v :: vs
      congr 1
      induction vs generalizing v with
      | nil => rfl
      | cons w ws ih => simp only [ewmaGo, ih]; norm_num

/-- **C7.** For every input series shorter than `2×period` (and every
possible behaviour of the external STL routine), `decompose_stl` returns
`none` — it neither raises nor returns a degenerate decomposition. -/
theorem decompose_stl_short_none
    (stlOracle : List ℚ → ℕ → Option (List ℚ × List ℚ × List ℚ))
    (values : List ℚ) (dates : Option (List String)) (period : ℕ)
    (h : values.length < period * 2) :
    decompose_stl stlOracle values dates period = none := by
  unfold decompose_stl
  rw [if_pos h]

theorem decompose_stl_short_none_witness :
    ([1, 2, 3] : List ℚ).length < 7 * 2 ∧
      decompose_stl (fun v _ => some (v, v, v)) [1, 2, 3] none 7 = none :=
  ⟨by decide, decompose_stl_short_none (fun v _ => some (v, v, v)) [1, 2, 3] none 7 (by decide)⟩

/-- **C6.** For every input list whose valid (non-null, non-NaN) values
number fewer than `min_points`, and for every behaviour of the external
regression and p-value routines, `detect_trend` returns direction
"stable" with confidence 0.0, slope 0.0 and p_value 1.0. -/
theorem detect_trend_short_stable (regOracle : List ℚ → ℚ × ℚ × ℚ)
    (pOracle : ℤ → ℚ → ℚ) (values : List (Option ℚ)) (slope_threshold : ℚ)
    (min_points : ℕ) (h : (values.filterMap id).length < min_points) :
    detect_trend regOracle pOracle values slope_threshold min_points =
      ⟨"stable", 0, 0, 1, none, none⟩ := by
  unfold detect_trend
  rw [if_pos h]

theorem detect_trend_short_stable_witness :
    (([some 3, none, some 4] : List (Option ℚ)).filterMap id).length < 4 ∧
      detect_trend (fun _ => (2, 1, 0)) (fun _ _ => 0) [some 3, none, some 4] (1/2) 4 =
        ⟨"stable", 0, 0, 1, none, none⟩ :=
  ⟨by decide,
   detect_trend_short_stable (fun _ => (2, 1, 0)) (fun _ _ => 0)
     [some 3, none, some 4] (1/2) 4 (by decide)⟩

/-- **C5.** `detect_cusum` never flags index 0 (for any input series and
any threshold/drift), and every series with fewer than 5 points yields
all-false alerts and all-zero scores. -/
theorem detect_cusum_never_flags_index0 (values : List ℚ) (threshold drift : ℚ) :
    (detect_cusum values threshold drift).1.getD 0 false = false ∧
      (values.length < 5 →
        detect_cusum values threshold drift =
          (List.replicate values.length false, List.replicate values.length 0)) := by
  constructor
  · unfold detect_cusum
    cases values with
    | nil => simp
    | cons v vs =>
      split_ifs with h
      · simp [List.replicate_succ]
      · simp
  · intro h
    unfold detect_cusum
    rw [if_pos h]

theorem detect_cusum_never_flags_index0_witness :
    ([3, 9, 4] : List ℚ).length < 5 ∧
      detect_cusum [3, 9, 4] 5 (1/2) =
        (List.replicate ([3, 9, 4] : List ℚ).length false,
         List.replicate ([3, 9, 4] : List ℚ).length 0) :=
  ⟨by decide, (detect_cusum_never_flags_index0 [3, 9, 4] 5 (1/2)).2 (by decide)⟩

/-- **C3.** For every call to `detect_anomalies_ensemble` (over every
possible isolation-forest output) and every observation index, the
returned verdict has `is_anomaly` true iff at least `min_agreement` of
the three methods (IQR, isolation forest, CUSUM) flagged that index, and
whenever `is_anomaly` is true the verdict's `anomaly_score` is at least
0.6. -/
theorem ensemble_verdict_agreement (isoFlags : List Bool) (isoScores : List ℚ)
    (event_counts : List ℚ) (min_agreement : ℕ) (i : ℕ) (r : AnomalyResult)
    (hr : (detect_anomalies_ensemble isoFlags isoScores event_counts min_agreement)[i]? =
      some r) :
    (r.is_anomaly = true ↔
      min_agreement ≤
        ((if (detect_iqr event_counts (3/2)).getD i false then 1 else 0) +
         (if isoFlags.getD i false then 1 else 0) +
         (if (detect_cusum event_counts 5 (1/2)).1.getD i false then 1 else 0) : ℕ)) ∧
      (r.is_anomaly = true → 3/5 ≤ r.anomaly_score) := by
  unfold detect_anomalies_ensemble at hr
  by_cases hn : event_counts.length = 0
  · rw [if_pos hn] at hr
    simp at hr
  · rw [if_neg hn] at hr
    rw [List.getElem?_map] at hr
    by_cases hin : i < event_counts.length
    · rw [List.getElem?_range hin] at hr
      simp only [Option.map_some'] at hr
      have hr' := Option.some.inj hr
      subst hr'
      constructor
      · simp only [decide_eq_true_eq]
        constructor
        · intro h
          refine le_trans h (le_of_eq ?_)
          simp [apply_ite List.length]
          split_ifs <;> simp
        · intro h
          refine le_trans h (le_of_eq ?_)
          simp [apply_ite List.length]
          split_ifs <;> simp
      · intro h
        simp only [h, if_true]
        simp only [decide_eq_true_eq] at h ⊢
        rw [if_pos]
        · exact le_max_right _ _
        · simpa [apply_ite List.length] using h
    · rw [List.getElem?_eq_none (by simpa using not_lt.mp hin)] at hr
      simp at hr

set_option maxRecDepth 4000 in
theorem ensemble_verdict_agreement_witness :
    ((detect_anomalies_ensemble
        [false, false, false, false, true, false, false, false, false, false, false, false]
        [0, 0, 0, 0, 0, 0, 0, 0, 0, 0, 0, 0]
        [5, 5, 5, 5, 40, 5, 5, 5, 5, 5, 5, 5] 2)[4]? =
      some ⟨true, 3/5, ["iqr", "isolation_forest", "cusum"],
            true, true, 0, true, 315833/10000⟩) ∧
    ((true = true ↔
      2 ≤
        ((if (detect_iqr [5, 5, 5, 5, 40, 5, 5, 5, 5, 5, 5, 5] (3/2)).getD 4 false then 1 else 0) +
         (if ([false, false, false, false, true, false, false, false, false, false, false,
              false].getD 4 false) then 1 else 0) +
         (if (detect_cusum [5, 5, 5, 5, 40, 5, 5, 5, 5, 5, 5, 5] 5 (1/2)).1.getD 4 false
          then 1 else 0) : ℕ)) ∧
      (true = true → (3/5 : ℚ) ≤ 3/5)) :=
  ⟨by decide,
   ensemble_verdict_agreement
     [false, false, false, false, true, false, false, false, false, false, false, false]
     [0, 0, 0, 0, 0, 0, 0, 0, 0, 0, 0, 0]
     [5, 5, 5, 5, 40, 5, 5, 5, 5, 5, 5, 5] 2 4
     ⟨true, 3/5, ["iqr", "isolation_forest", "cusum"], true, true, 0, true, 315833/10000⟩
     (by decide)⟩

theorem pyRoundIntR_mono {x y : ℝ} (h : x ≤ y) : pyRoundIntR x ≤ pyRoundIntR y := by
  have hfl : ⌊x⌋ ≤ ⌊y⌋ := Int.floor_le_floor h
  rcases eq_or_lt_of_le hfl with heq | hlt
  · have hfx : x - ⌊x⌋ ≤ y - ⌊y⌋ := by rw [← heq]; linarith
    unfold pyRoundIntR
    rw [← heq]
    split_ifs <;> first | omega | linarith
  · have h1 : pyRoundIntR x ≤ ⌊x⌋ + 1 := by
      unfold pyRoundIntR; split_ifs <;> omega
    have h2 : ⌊y⌋ ≤ pyRoundIntR y := by
      unfold pyRoundIntR; split_ifs <;> omega
    omega

theorem pyRoundIntR_ratCast (q : ℚ) : pyRoundIntR (q : ℝ) = pyRoundInt q := by
  unfold pyRoundIntR pyRoundInt
  have hf : ⌊(q : ℝ)⌋ = ⌊q⌋ := Rat.floor_cast q
  rw [hf]
  have e1 : ((q : ℝ) - ((⌊q⌋ : ℤ) : ℝ) < 1/2) = ((q : ℚ) - ⌊q⌋ < 1/2) := by
    rw [show ((q : ℝ) - ((⌊q⌋ : ℤ) : ℝ)) = (((q - ⌊q⌋ : ℚ)) : ℝ) by push_cast; ring,
      show ((1 : ℝ)/2) = (((1/2 : ℚ)) : ℝ) by norm_num, Rat.cast_lt]
  have e2 : ((1 : ℝ)/2 < (q : ℝ) - ((⌊q⌋ : ℤ) : ℝ)) = ((1/2 : ℚ) < (q : ℚ) - ⌊q⌋) := by
    rw [show ((q : ℝ) - ((⌊q⌋ : ℤ) : ℝ)) = (((q - ⌊q⌋ : ℚ)) : ℝ) by push_cast; ring,
      show ((1 : ℝ)/2) = (((1/2 : ℚ)) : ℝ) by norm_num, Rat.cast_lt]
  simp only [e1, e2]

theorem round2R_ratCast (q : ℚ) : round2R (q : ℝ) = ((round2 q : ℚ) : ℝ) := by
  unfold round2R pyRoundR round2 pyRound
  rw [show ((q : ℝ) * 100) = (((q * 100 : ℚ)) : ℝ) by push_cast; ring, pyRoundIntR_ratCast]
  push_cast
  ring

theorem round2R_mono {x y : ℝ} (h : x ≤ y) : round2R x ≤ round2R y := by
  unfold round2R pyRoundR
  have := pyRoundIntR_mono (mul_le_mul_of_nonneg_right h (by norm_num : (0:ℝ) ≤ 100))
  have h2 : ((pyRoundIntR (x * 100) : ℤ) : ℝ) ≤ ((pyRoundIntR (y * 100) : ℤ) : ℝ) := by
    exact_mod_cast this
  linarith

theorem exp_seven_tenths_gt_two : (2 : ℝ) < Real.exp (7/10) := by
  have h1 : (2.7182818283 : ℝ) < Real.exp 1 := Real.exp_one_gt_d9
  have h7 : (1024 : ℝ) < Real.exp 7 := by
    have he : Real.exp 7 = Real.exp 1 ^ (7 : ℕ) := by
      rw [← Real.exp_nat_mul]
      norm_num
    have hp : (2.7182818283 : ℝ) ^ (7 : ℕ) < Real.exp 1 ^ (7 : ℕ) :=
      pow_lt_pow_left h1 (by norm_num) (by norm_num)
    have hb : (1024 : ℝ) < (2.7182818283 : ℝ) ^ (7 : ℕ) := by norm_num
    rw [he]
    linarith
  by_contra hle
  push_neg at hle
  have h10 : Real.exp 7 = Real.exp (7/10) ^ (10 : ℕ) := by
    rw [← Real.exp_nat_mul]
    norm_num
  have : Real.exp (7/10) ^ (10 : ℕ) ≤ (2 : ℝ) ^ (10 : ℕ) :=
    pow_le_pow_left (le_of_lt (Real.exp_pos _)) hle 10
  rw [← h10] at this
  norm_num at this
  linarith

/-- **C4 (counterexample).** The recency component does not halve over 7
days: a publish date 7 days old scores `exp(-0.7) ≈ 0.4966`, which is not
half of the score `1.0` of a fresh article. -/
theorem recency_not_half_life_counterexample :
    _compute_recency_score (some 7) ≠ _compute_recency_score (some 0) / 2 := by
  simp only [_compute_recency_score]
  have h0 : ((max 0 (0:ℤ) : ℤ) : ℝ) = 0 := by norm_num
  have h7 : ((max 0 (7:ℤ) : ℤ) : ℝ) = 7 := by norm_num
  rw [h0, h7]
  rw [show (-(0.1) * (0:ℝ)) = 0 by ring, Real.exp_zero]
  rw [show (-(0.1) * (7:ℝ)) = -(7/10) by ring]
  rw [Real.exp_neg]
  intro h
  have h2 := exp_seven_tenths_gt_two
  have hpos : (0 : ℝ) < Real.exp (7/10) := Real.exp_pos _
  field_simp at h
  nlinarith [h, h2, hpos]

/-- **C4 (amended).** The recency component decays exponentially at rate
`exp(-0.1)` per day — so a date 7 days older multiplies the score by
`exp(-0.7) ≈ 0.497`, slightly less than half — and a missing publish date
yields exactly 0.5. -/
theorem recency_decay_rate (d : ℤ) (hd : 0 ≤ d) :
    _compute_recency_score (some (d + 7)) =
        Real.exp (-(7/10)) * _compute_recency_score (some d) ∧
      Real.exp (-(7/10)) < 1/2 ∧
      _compute_recency_score none = 0.5 := by
  refine ⟨?_, ?_, rfl⟩
  · simp only [_compute_recency_score]
    have h1 : max 0 (d + 7) = max 0 d + 7 := by omega
    rw [h1]
    rw [← Real.exp_add]
    congr 1
    push_cast
    ring
  · rw [Real.exp_neg]
    have h2 := exp_seven_tenths_gt_two
    have hpos : (0 : ℝ) < Real.exp (7/10) := Real.exp_pos _
    rw [inv_lt (by positivity) (by norm_num)]
    convert h2 using 1
    norm_num

theorem recency_decay_rate_witness :
    (0 : ℤ) ≤ 0 ∧
      (_compute_recency_score (some (0 + 7)) =
          Real.exp (-(7/10)) * _compute_recency_score (some 0) ∧
        Real.exp (-(7/10)) < 1/2 ∧
        _compute_recency_score none = 0.5) :=
  ⟨le_refl 0, recency_decay_rate 0 (le_refl 0)⟩

/-- For country code "UA" the geopolitical component is at least 1 for
every text: the direct conflict-zone lookup gives 1.0 and text mentions
only ever raise the score. -/
theorem geo_ua_ge_one (text : String) :
    1 ≤ _compute_geopolitical_score (some "UA") text := by
  have hbase :
      (lookupChars CONFLICT_ZONE_SCORES ((("UA" : String).toList).map Char.toUpper)).getD 0
        = 1 := by decide
  simp only [_compute_geopolitical_score]
  rcases hm : COUNTRY_NAMES_TO_SCORES.filterMap
      (fun p => if listIsInfix p.1.toList (lowerStr text) then some p.2 else none) with
    _ | ⟨m, ms⟩
  · rw [hm, hbase]
  · rw [hm, hbase]
    exact le_max_left _ _

set_option maxRecDepth 100000 in
set_option maxHeartbeats 12000000 in
/-- **C2 (counterexample).** A text containing "nuclear war invasion"
scored with country code "UA" can come out below 65: this 114-word text
scores 58.21, because the sentiment density 0.298 stays below the 0.3
needed for the active-war-zone floor. -/
theorem score_severity_c2_counterexample :
    listIsInfix ("nuclear war invasion" : String).toList (lowerStr cxText) = true ∧
      (score_severity cxText "Civil Unrest" 0 none (some "UA") none none).severity_index
        < 65 := by
  constructor
  · decide
  · have hs : _compute_sentiment_score cxText = (17/57, -1) := by decide
    have hk : _compute_keyword_intensity cxText = 1 := by decide
    have hg : _compute_geopolitical_score (some "UA") cxText = 1 := by decide
    have hu : _compute_urgency_boost cxText = 0 := by decide
    have he : _compute_entity_density 0 cxText.length = 0 := by decide
    have hc : ((CATEGORY_WEIGHTS.lookup "Civil Unrest").getD 0.3 : ℚ) = 0.65 := by decide
    simp only [score_severity, _compute_recency_score, hs, hk, hg, hu, he, hc]
    norm_num
    rw [show (13273/228 : ℝ) = (((13273/228 : ℚ)) : ℝ) by norm_num, round2R_ratCast]
    have hr : round2 (13273/228 : ℚ) = 5821/100 := by decide
    rw [hr]
    norm_num

theorem floor_si_ge (C : ℝ) : (65 : ℝ) ≤ min 100 (max 0 (max C 0.65 * 100)) := by
  have h1 : (0.65 : ℝ) ≤ max C 0.65 := le_max_right _ _
  have h2 : (65 : ℝ) ≤ max C 0.65 * 100 := by nlinarith
  exact le_min (by norm_num) (le_trans h2 (le_max_right _ _))

theorem round2R_ge_65 {x : ℝ} (h : 65 ≤ x) : (65 : ℝ) ≤ round2R x := by
  have h1 : round2R (65 : ℝ) ≤ round2R x := round2R_mono h
  have h2 : round2R (65 : ℝ) = 65 := by
    rw [show (65 : ℝ) = (((65 : ℚ)) : ℝ) by norm_num, round2R_ratCast]
    have h3 : round2 (65 : ℚ) = 65 := by decide
    rw [h3]
  linarith

theorem threat_high_or_critical {si : ℝ} (h : 65 ≤ si) :
    ((if 75 ≤ si then "critical"
      else if 55 ≤ si then "high"
      else if 35 ≤ si then "medium"
      else if 18 ≤ si then "low"
      else "info") = "high" ∨
     (if 75 ≤ si then "critical"
      else if 55 ≤ si then "high"
      else if 35 ≤ si then "medium"
      else if 18 ≤ si then "low"
      else "info") = "critical") := by
  by_cases h75 : (75 : ℝ) ≤ si
  · right
    rw [if_pos h75]
  · left
    rw [if_neg h75, if_pos (by linarith : (55 : ℝ) ≤ si)]

/-- **C2 (amended).** For every text containing the phrase
"nuclear war invasion" whose lexicon sentiment component is at least 0.3
(in particular the three-word phrase itself — long diluted texts can fall
below that threshold), `score_severity` with country code "UA" returns
`severity_index ≥ 65` and `threat_level ∈ {high, critical}`: the
geopolitical score 1.0 together with sentiment ≥ 0.3 triggers the
active-war-zone floor of 0.65. -/
theorem score_severity_war_zone_floor (text : String)
    (hphrase : listIsInfix ("nuclear war invasion" : String).toList (lowerStr text) = true)
    (hsent : 3/10 ≤ (_compute_sentiment_score text).1) :
    65 ≤ (score_severity text "Civil Unrest" 0 none (some "UA") none none).severity_index ∧
      ((score_severity text "Civil Unrest" 0 none (some "UA") none none).threat_level
          = "high" ∨
       (score_severity text "Civil Unrest" 0 none (some "UA") none none).threat_level
          = "critical") := by
  have hg : 1 ≤ _compute_geopolitical_score (some "UA") text := geo_ua_ge_one text
  have hcond : (0.85 : ℚ) ≤ _compute_geopolitical_score (some "UA") text ∧
      (0.3 : ℚ) ≤ (_compute_sentiment_score text).1 := by
    constructor
    · have : (0.85 : ℚ) ≤ 1 := by norm_num
      linarith
    · have h3 : (0.3 : ℚ) = 3/10 := by norm_num
      rw [h3]
      exact hsent
  simp only [score_severity]
  rw [if_pos hcond]
  exact ⟨round2R_ge_65 (floor_si_ge _), threat_high_or_critical (floor_si_ge _)⟩

set_option maxRecDepth 100000 in
set_option maxHeartbeats 4000000 in
theorem score_severity_war_zone_floor_witness :
    (listIsInfix ("nuclear war invasion" : String).toList
        (lowerStr "nuclear war invasion") = true ∧
      3/10 ≤ (_compute_sentiment_score "nuclear war invasion").1) ∧
      (65 ≤ (score_severity "nuclear war invasion" "Civil Unrest" 0 none (some "UA")
          none none).severity_index ∧
        ((score_severity "nuclear war invasion" "Civil Unrest" 0 none (some "UA")
            none none).threat_level = "high" ∨
         (score_severity "nuclear war invasion" "Civil Unrest" 0 none (some "UA")
            none none).threat_level = "critical")) :=
  ⟨⟨by decide, by decide⟩,
   score_severity_war_zone_floor "nuclear war invasion" (by decide) (by decide)⟩

theorem le_maxSndFrom_seed (l : List (String × ℕ)) (n : ℕ) :
    n ≤ l.foldl (fun n p => max n p.2) n := by
  induction l generalizing n with
  | nil => exact le_refl n
  | cons w ws ih =>
    calc n ≤ max n w.2 := le_max_left _ _
    _ ≤ ws.foldl (fun n p => max n p.2) (max n w.2) := ih _

theorem le_maxSndFrom (a : String × ℕ) (l : List (String × ℕ)) :
    a.2 ≤ maxSndFrom a l := le_maxSndFrom_seed l a.2

theorem maxStep_snd (a w : String × ℕ) : (maxStep a w).2 = max a.2 w.2 := by
  unfold maxStep
  split_ifs with h <;> omega

theorem maxSndFrom_cons (a w : String × ℕ) (ws : List (String × ℕ)) :
    maxSndFrom a (w :: ws) = maxSndFrom (maxStep a w) ws := by
  unfold maxSndFrom
  simp only [List.foldl_cons, maxStep_snd]

theorem find?_firstMax (l : List (String × ℕ)) (a : String × ℕ) (M : ℕ)
    (hM : M = maxSndFrom a l) :
    (a :: l).find? (fun p => p.2 == M) = some (l.foldl maxStep a) := by
  induction l generalizing a M with
  | nil =>
    subst hM
    simp [maxSndFrom, List.find?]
  | cons w ws ih =>
    have hM' : M = maxSndFrom (maxStep a w) ws := by rw [hM, maxSndFrom_cons]
    have hle : (maxStep a w).2 ≤ M := by rw [hM']; exact le_maxSndFrom _ _
    rw [List.foldl_cons]
    by_cases hw : a.2 < w.2
    · have hstep : maxStep a w = w := by unfold maxStep; rw [if_pos hw]
      rw [hstep] at hle
      have haM : a.2 < M := by omega
      rw [List.find?_cons_of_neg _ (by simp only [beq_iff_eq]; omega)]
      have := ih (maxStep a w) M hM'
      rw [hstep] at this
      rw [hstep]
      exact this
    · have hstep : maxStep a w = a := by unfold maxStep; rw [if_neg hw]
      rw [hstep] at hle
      have iha := ih (maxStep a w) M hM'
      rw [hstep] at iha
      by_cases ha : a.2 = M
      · have h1 : (a :: ws).find? (fun p => p.2 == M) = some a :=
          List.find?_cons_of_pos _ (by simp only [beq_iff_eq]; exact ha)
        have h2 : ws.foldl maxStep a = a := Option.some.inj (iha.symm.trans h1)
        rw [hstep, h2]
        exact List.find?_cons_of_pos _ (by simp only [beq_iff_eq]; exact ha)
      · have haM : a.2 < M := lt_of_le_of_ne hle ha
        have hwM : w.2 < M := by omega
        rw [hstep]
        rw [List.find?_cons_of_neg _ (by simp only [beq_iff_eq]; omega)]
        rw [List.find?_cons_of_neg _ (by simp only [beq_iff_eq]; omega)]
        rw [List.find?_cons_of_neg _ (by simp only [beq_iff_eq]; omega)] at iha
        exact iha

theorem find?_filterMap_hits (L : List (String × List String))
    (h : String × List String → ℕ) (M : ℕ) (hM : 0 < M) :
    (L.filterMap (fun r => if 0 < h r then some (r.1, h r) else none)).find?
        (fun p => p.2 == M) =
      (L.find? (fun r => h r == M)).map (fun r => (r.1, h r)) := by
  induction L with
  | nil => rfl
  | cons r rest ih =>
    by_cases hr : 0 < h r
    · have hfa : (fun r => if 0 < h r then some (r.1, h r) else none) r = some (r.1, h r) := by
        simp [hr]
      rw [@List.filterMap_cons_some _ _ (fun r => if 0 < h r then some (r.1, h r) else none) r rest _ hfa]
      by_cases hEq : h r = M
      · rw [List.find?_cons_of_pos _ (by simp only [beq_iff_eq]; exact hEq),
          List.find?_cons_of_pos _ (by simp only [beq_iff_eq]; exact hEq)]
        simp
      · rw [List.find?_cons_of_neg _ (by simp only [beq_iff_eq]; exact hEq),
          List.find?_cons_of_neg _ (by simp only [beq_iff_eq]; exact hEq)]
        exact ih
    · have hfa : (fun r => if 0 < h r then some (r.1, h r) else none) r = none := by
        simp [hr]
      rw [@List.filterMap_cons_none _ _ (fun r => if 0 < h r then some (r.1, h r) else none) r rest hfa]
      rw [List.find?_cons_of_neg _ (by simp only [beq_iff_eq]; omega)]
      exact ih

theorem foldr_max_filterMap (L : List (String × List String))
    (h : String × List String → ℕ) :
    (((L.filterMap (fun r => if 0 < h r then some (r.1, h r) else none)).map
        Prod.snd).foldr max 0) = ((L.map h).foldr max 0) := by
  induction L with
  | nil => rfl
  | cons r rest ih =>
    by_cases hr : 0 < h r
    · have hfa : (fun r => if 0 < h r then some (r.1, h r) else none) r = some (r.1, h r) := by
        simp [hr]
      rw [@List.filterMap_cons_some _ _ (fun r => if 0 < h r then some (r.1, h r) else none) r rest _ hfa]
      simp only [List.map_cons, List.foldr_cons, ih]
    · have hfa : (fun r => if 0 < h r then some (r.1, h r) else none) r = none := by
        simp [hr]
      rw [@List.filterMap_cons_none _ _ (fun r => if 0 < h r then some (r.1, h r) else none) r rest hfa]
      simp only [List.map_cons, List.foldr_cons, ih]
      have h0 : h r = 0 := by omega
      rw [h0, Nat.zero_max]

theorem maxSndFrom_eq_foldr (a : String × ℕ) (l : List (String × ℕ)) :
    maxSndFrom a l = max a.2 ((l.map Prod.snd).foldr max 0) := by
  induction l generalizing a with
  | nil => simp [maxSndFrom]
  | cons w ws ih =>
    rw [maxSndFrom_cons, ih, maxStep_snd]
    simp only [List.map_cons, List.foldr_cons]
    rw [max_assoc]

/-- **C9.** `classify_by_keywords` is a deterministic function of the
text (it is a pure Lean function of `text` by construction): with zero
keyword hits across all six category lists it returns ("Civil Unrest",
0.1); otherwise it returns the earliest-listed category attaining the
maximal keyword-hit count — the first match of `List.find?` — with
confidence `min(0.7, hits/5)`. -/
theorem classify_by_keywords_first_max (text : String) :
    ((∀ r ∈ KEYWORD_RULES, keywordHits (lowerStr text) r.2 = 0) →
       classify_by_keywords text = ("Civil Unrest", 0.1)) ∧
    ((∃ r ∈ KEYWORD_RULES, 0 < keywordHits (lowerStr text) r.2) →
       ∃ best ∈ KEYWORD_RULES,
         KEYWORD_RULES.find?
             (fun r => keywordHits (lowerStr text) r.2 == maxHits (lowerStr text)) =
           some best ∧
         classify_by_keywords text =
           (best.1, min 0.7 ((keywordHits (lowerStr text) best.2 : ℚ) / 5))) := by
  constructor
  · intro h0
    have hnil : KEYWORD_RULES.filterMap (fun rule =>
        if 0 < keywordHits (lowerStr text) rule.2 then
          some (rule.1, keywordHits (lowerStr text) rule.2) else none) = [] := by
      rw [List.filterMap_eq_nil_iff]
      intro r hr
      rw [if_neg]
      rw [h0 r hr]
      omega
    simp only [classify_by_keywords]
    rw [hnil]
  · rintro ⟨r0, hr0, hpos⟩
    rcases hsc : KEYWORD_RULES.filterMap (fun rule =>
        if 0 < keywordHits (lowerStr text) rule.2 then
          some (rule.1, keywordHits (lowerStr text) rule.2) else none) with _ | ⟨s, rest⟩
    · exfalso
      have := List.filterMap_eq_nil_iff.mp hsc r0 hr0
      rw [if_pos hpos] at this
      exact Option.noConfusion this
    · have hclass : classify_by_keywords text =
          ((rest.foldl maxStep s).1, min 0.7 (((rest.foldl maxStep s).2 : ℚ) / 5)) := by
        simp only [classify_by_keywords]
        rw [hsc]
      have hsmem : s ∈ KEYWORD_RULES.filterMap (fun rule =>
          if 0 < keywordHits (lowerStr text) rule.2 then
            some (rule.1, keywordHits (lowerStr text) rule.2) else none) := by
        rw [hsc]
        exact List.mem_cons_self s rest
      have hspos : 0 < s.2 := by
        rcases List.mem_filterMap.mp hsmem with ⟨r, _, hfr⟩
        by_cases hc : 0 < keywordHits (lowerStr text) r.2
        · rw [if_pos hc] at hfr
          have := Option.some.inj hfr
          rw [← this]
          exact hc
        · rw [if_neg hc] at hfr
          exact Option.noConfusion hfr
      have hMfold : maxHits (lowerStr text) = maxSndFrom s rest := by
        have h1 : maxSndFrom s rest = max s.2 ((rest.map Prod.snd).foldr max 0) :=
          maxSndFrom_eq_foldr s rest
        have h2 := foldr_max_filterMap KEYWORD_RULES
          (fun r => keywordHits (lowerStr text) r.2)
        simp only [] at h2
        rw [hsc] at h2
        simp only [List.map_cons, List.foldr_cons] at h2
        unfold maxHits
        rw [← h2, h1]
      have hM0 : 0 < maxHits (lowerStr text) := by
        have hle := le_maxSndFrom s rest
        rw [hMfold]
        omega
      have h1 := find?_firstMax rest s (maxHits (lowerStr text)) hMfold
      have h2 := find?_filterMap_hits KEYWORD_RULES
        (fun r => keywordHits (lowerStr text) r.2) (maxHits (lowerStr text)) hM0
      simp only [] at h2
      rw [hsc, h1] at h2
      rcases hfind : KEYWORD_RULES.find?
          (fun r => keywordHits (lowerStr text) r.2 == maxHits (lowerStr text)) with _ | best
      · rw [hfind] at h2
        simp only [Option.map_none'] at h2
        exact Option.noConfusion h2
      · rw [hfind] at h2
        simp only [Option.map_some'] at h2
        have hbest := Option.some.inj h2
        refine ⟨best, List.mem_of_find?_eq_some hfind, hfind, ?_⟩
        rw [hclass, hbest]

theorem classify_by_keywords_first_max_witness :
    classify_by_keywords "zzz" = ("Civil Unrest", 0.1) ∧
      (∃ best ∈ KEYWORD_RULES,
        KEYWORD_RULES.find?
            (fun r => keywordHits (lowerStr "war protest invasion") r.2 ==
              maxHits (lowerStr "war protest invasion")) = some best ∧
        classify_by_keywords "war protest invasion" =
          (best.1, min 0.7 ((keywordHits (lowerStr "war protest invasion") best.2 : ℚ) / 5))) :=
  ⟨(classify_by_keywords_first_max "zzz").1 (by decide),
   (classify_by_keywords_first_max "war protest invasion").2 (by decide)⟩

end Atlas

